import Mathlib

/-!
Verification of the SenseVoice streaming ASR serving layer.

This file gives a shallow embedding of the core streaming components of the
repository and proves properties of the embedded definitions:

* `AudioBuffer` with `add_audio`, `get_unprocessed_audio`, `consume_audio`,
  `clear` (src/handlers/audio_handler.py).
* `SpeechSegment` and the timestamp-parsing core of
  `VADProcessor.detect_speech_segments` (src/handlers/vad_processor.py).
* `process_audio_with_independent_vad`, the VAD-driven segment-consumption
  poll (src/handlers/streaming_asr.py).
* The WebSocket message dispatch and the result-emission logic of the audio
  consumer loop (src/websocket/streaming_handler.py).
* The chunked long-audio batch path `_process_long_audio_chunked`
  (src/api.py).

Machine conventions: audio samples are modelled as an opaque `Int` payload
(the sample values never influence the control flow under study); Python
floats carrying times in seconds are modelled as exact rationals; the
recognizer and VAD model invocations are external collaborators and are
passed in as function parameters.
-/

/-- Python `int(x)` truncation toward zero on a rational. -/
def pyInt (q : ℚ) : Int := if 0 ≤ q then ⌊q⌋ else -⌊-q⌋

/-- Python list slice `l[s:e]` for natural indices: elements `s ≤ i < e`. -/
def pySlice (l : List Int) (s e : ℕ) : List Int := (l.take e).drop s

/-- Python list slice `l[s:e]` for possibly negative integer indices, with
Python's clipping semantics. -/
def pySliceI (l : List Int) (s e : Int) : List Int :=
  let n : Int := l.length
  let s' : ℕ := (if s < 0 then max 0 (n + s) else min s n).toNat
  let e' : ℕ := (if e < 0 then max 0 (n + e) else min e n).toNat
  (l.take e').drop s'

/-- `SpeechSegment` from src/handlers/vad_processor.py: a detected speech
region with times in seconds and sample indices into the analyzed audio. -/
structure SpeechSegment where
  start_time : ℚ
  end_time : ℚ
  start_sample : Int
  end_sample : Int
  processed : Bool
  deriving DecidableEq, Repr

/-- `SpeechSegment.duration` from src/handlers/vad_processor.py. -/
def SpeechSegment.duration (s : SpeechSegment) : ℚ := s.end_time - s.start_time

/-- `AudioBuffer` from src/handlers/audio_handler.py.  The `deque` with
`maxlen = max_samples` is modelled as a list from which the head is evicted
on overflow. -/
structure AudioBuffer where
  max_samples : ℕ
  sample_rate : ℕ
  buffer : List Int
  processed_offset : ℕ
  total_samples_added : ℕ
  vad_processed_offset : ℕ
  speech_segments : List SpeechSegment
  processed_segments : List SpeechSegment
  deriving DecidableEq, Repr

/-- A freshly constructed `AudioBuffer` (the `__init__` state). -/
def AudioBuffer.init (max_samples sample_rate : ℕ) : AudioBuffer :=
  { max_samples := max_samples
    sample_rate := sample_rate
    buffer := []
    processed_offset := 0
    total_samples_added := 0
    vad_processed_offset := 0
    speech_segments := []
    processed_segments := [] }

/-- One `deque.append` with `maxlen`: the head is evicted when the bound
would be exceeded. -/
def dequePush (maxlen : ℕ) (buf : List Int) (s : Int) : List Int :=
  (buf ++ [s]).drop (buf.length + 1 - maxlen)

/-- `AudioBuffer.add_audio`: appends every sample to the bounded deque and
increments `total_samples_added` by the number of samples that were added
(mono input is modelled directly as a 1-D list). -/
def AudioBuffer.add_audio (b : AudioBuffer) (audio_data : List Int) : AudioBuffer :=
  { b with
    buffer := audio_data.foldl (dequePush b.max_samples) b.buffer
    total_samples_added := b.total_samples_added + audio_data.length }

/-- `AudioBuffer.get_unprocessed_audio`: returns the unprocessed tail, and
resets `processed_offset` to 0 when it is at or past the end of the current
buffer.  The Python method mutates the buffer, so the model returns the
audio together with the post-call buffer. -/
def AudioBuffer.get_unprocessed_audio (b : AudioBuffer) : List Int × AudioBuffer :=
  if b.processed_offset ≥ b.buffer.length then
    (b.buffer, { b with processed_offset := 0 })
  else
    (b.buffer.drop b.processed_offset, b)

/-- `AudioBuffer.clear`: empties the deque and resets every counter and both
segment lists to their initial values. -/
def AudioBuffer.clear (b : AudioBuffer) : AudioBuffer :=
  { b with
    buffer := []
    processed_offset := 0
    total_samples_added := 0
    vad_processed_offset := 0
    speech_segments := []
    processed_segments := [] }

/-- `AudioBuffer.consume_audio`: for a positive request, pops
`min n (len buffer)` samples from the head of the deque and resets the
VAD bookkeeping; a request `n ≤ 0` returns immediately without touching
anything. -/
def AudioBuffer.consume_audio (b : AudioBuffer) (samples_to_consume : Int) : AudioBuffer :=
  if samples_to_consume ≤ 0 then b
  else
    { b with
      buffer := b.buffer.drop (min samples_to_consume.toNat b.buffer.length)
      speech_segments := []
      processed_segments := []
      vad_processed_offset := 0 }

lemma add_audio_total (b : AudioBuffer) (d : List Int) :
    (b.add_audio d).total_samples_added = b.total_samples_added + d.length := rfl

lemma foldl_add_audio_total (frames : List (List Int)) :
    ∀ b : AudioBuffer,
      (frames.foldl AudioBuffer.add_audio b).total_samples_added
        = b.total_samples_added + (frames.map List.length).sum := by
  induction frames with
  | nil => intro b; simp
  | cons f fs ih =>
      intro b
      simp only [List.foldl_cons, List.map_cons, List.sum_cons]
      rw [ih, add_audio_total]
      omega

/-- C5: starting from a fresh buffer, any sequence of `add_audio` calls
leaves `total_samples_added` equal to the sum of the appended frame lengths,
for every capacity `max_samples` (hence regardless of eviction). -/
theorem total_samples_added_eq_sum_of_appends
    (max_samples sample_rate : ℕ) (frames : List (List Int)) :
    (frames.foldl AudioBuffer.add_audio
        (AudioBuffer.init max_samples sample_rate)).total_samples_added
      = (frames.map List.length).sum := by
  rw [foldl_add_audio_total]
  simp [AudioBuffer.init]

/-- C6 counterexample: `consume_audio 0` returns early, so the pending
VAD-segment bookkeeping is NOT reset — refuting the claim for `n = 0`. -/
def consumeCexBuffer : AudioBuffer :=
  { max_samples := 10
    sample_rate := 16000
    buffer := [1, 2, 3]
    processed_offset := 0
    total_samples_added := 3
    vad_processed_offset := 2
    speech_segments := [⟨0, 1/10, 0, 1, false⟩]
    processed_segments := [] }

/-- C6 counterexample: consuming `n = 0` samples leaves the pending segment
list and the VAD-processed offset untouched, contradicting the claim that
`consume(n)` resets all VAD-segment bookkeeping for every `n`. -/
theorem consume_audio_zero_keeps_bookkeeping :
    consumeCexBuffer.consume_audio 0 = consumeCexBuffer ∧
    consumeCexBuffer.speech_segments ≠ [] ∧
    consumeCexBuffer.vad_processed_offset ≠ 0 := by
  refine ⟨rfl, ?_, ?_⟩ <;> simp [consumeCexBuffer]

/-- C6 (amended): for `n > 0`, `consume_audio n` removes
`min n (len buffer)` samples from the head (FIFO, clamped without error)
and resets all VAD-segment bookkeeping; for `n ≤ 0` it is a no-op. -/
theorem consume_audio_spec (b : AudioBuffer) (n : Int) :
    (0 < n →
      (b.consume_audio n).buffer = b.buffer.drop (min n.toNat b.buffer.length) ∧
      b.buffer.take (min n.toNat b.buffer.length) ++ (b.consume_audio n).buffer = b.buffer ∧
      (b.consume_audio n).buffer.length = b.buffer.length - min n.toNat b.buffer.length ∧
      (b.consume_audio n).speech_segments = [] ∧
      (b.consume_audio n).processed_segments = [] ∧
      (b.consume_audio n).vad_processed_offset = 0) ∧
    (n ≤ 0 → b.consume_audio n = b) := by
  constructor
  · intro hn
    have hif : ¬ n ≤ 0 := by omega
    have h1 : b.consume_audio n =
        { b with
          buffer := b.buffer.drop (min n.toNat b.buffer.length)
          speech_segments := []
          processed_segments := []
          vad_processed_offset := 0 } := by
      simp only [AudioBuffer.consume_audio, if_neg hif]
    rw [h1]
    refine ⟨rfl, List.take_append_drop _ _, ?_, rfl, rfl, rfl⟩
    simp [List.length_drop]
  · intro hn
    simp only [AudioBuffer.consume_audio, if_pos hn]

/-- C6 witness: the amended specification evaluated at a concrete buffer
and `n = 2` (clamping case: `n` exceeds the buffer length is also covered
by the clamp `min`). -/
theorem consume_audio_spec_witness :
    ((0 : Int) < 2 →
      (consumeCexBuffer.consume_audio 2).buffer
          = consumeCexBuffer.buffer.drop (min (Int.toNat 2) consumeCexBuffer.buffer.length) ∧
      consumeCexBuffer.buffer.take (min (Int.toNat 2) consumeCexBuffer.buffer.length)
          ++ (consumeCexBuffer.consume_audio 2).buffer = consumeCexBuffer.buffer ∧
      (consumeCexBuffer.consume_audio 2).buffer.length
          = consumeCexBuffer.buffer.length - min (Int.toNat 2) consumeCexBuffer.buffer.length ∧
      (consumeCexBuffer.consume_audio 2).speech_segments = [] ∧
      (consumeCexBuffer.consume_audio 2).processed_segments = [] ∧
      (consumeCexBuffer.consume_audio 2).vad_processed_offset = 0) ∧
    ((2 : Int) ≤ 0 → consumeCexBuffer.consume_audio 2 = consumeCexBuffer) :=
  consume_audio_spec consumeCexBuffer 2

/-- C7: `get_unprocessed_audio` returns `buffer[processed_offset:]` when the
offset is in range; whenever the offset is at or past the end of the buffer
it resets the offset to 0 and returns the entire buffer; in every case the
post-call offset is within the buffer bounds (never dangling). -/
theorem get_unprocessed_audio_spec (b : AudioBuffer) :
    (b.processed_offset < b.buffer.length →
      b.get_unprocessed_audio = (b.buffer.drop b.processed_offset, b)) ∧
    (b.buffer.length ≤ b.processed_offset →
      b.get_unprocessed_audio = (b.buffer, { b with processed_offset := 0 })) ∧
    (b.get_unprocessed_audio).2.processed_offset ≤ (b.get_unprocessed_audio).2.buffer.length := by
  refine ⟨?_, ?_, ?_⟩
  · intro h
    have : ¬ b.processed_offset ≥ b.buffer.length := by omega
    simp only [AudioBuffer.get_unprocessed_audio, if_neg this]
  · intro h
    have : b.processed_offset ≥ b.buffer.length := h
    simp only [AudioBuffer.get_unprocessed_audio, if_pos this]
  · by_cases h : b.processed_offset ≥ b.buffer.length
    · simp only [AudioBuffer.get_unprocessed_audio, if_pos h]
      simp
    · simp only [AudioBuffer.get_unprocessed_audio, if_neg h]
      omega

/-- C7 witness: the specification evaluated at a buffer whose offset was
left past the end of the (shrunken) buffer. -/
theorem get_unprocessed_audio_spec_witness :
    let b : AudioBuffer :=
      { max_samples := 10
        sample_rate := 16000
        buffer := [5, 6]
        processed_offset := 4
        total_samples_added := 12
        vad_processed_offset := 0
        speech_segments := []
        processed_segments := [] }
    (b.processed_offset < b.buffer.length →
      b.get_unprocessed_audio = (b.buffer.drop b.processed_offset, b)) ∧
    (b.buffer.length ≤ b.processed_offset →
      b.get_unprocessed_audio = (b.buffer, { b with processed_offset := 0 })) ∧
    (b.get_unprocessed_audio).2.processed_offset ≤ (b.get_unprocessed_audio).2.buffer.length :=
  get_unprocessed_audio_spec _

/-- Minimum speech duration in seconds (`VADProcessor.min_speech_duration`,
default 0.25 s). -/
def min_speech_duration : ℚ := 1/4

/-- Core of `VADProcessor.detect_speech_segments`: the external VAD model's
parsed millisecond timestamp pairs are converted to seconds, segments
shorter than `min_speech_duration` are dropped, and the sample indices are
clamped into `[0, len audio]`.  The external model invocation and the
result-format probing are abstracted into the `timestamps` input; the
failure paths of the method return `[]` and are covered trivially. -/
def detect_speech_segments (audioLen sample_rate : ℕ)
    (timestamps : List (Int × Int)) : List SpeechSegment :=
  timestamps.filterMap (fun p =>
    let start_time : ℚ := (p.1 : ℚ) / 1000
    let end_time : ℚ := (p.2 : ℚ) / 1000
    if min_speech_duration ≤ end_time - start_time then
      let start_sample : Int := max 0 (min (pyInt (start_time * (sample_rate : ℚ))) (audioLen : Int))
      let end_sample : Int := max start_sample (min (pyInt (end_time * (sample_rate : ℚ))) (audioLen : Int))
      some ⟨start_time, end_time, start_sample, end_sample, false⟩
    else none)

/-- C10: every segment returned by the VAD segmenter has
`0 ≤ start_sample ≤ end_sample ≤ len audio`, so slicing the analyzed audio
by those indices is always in bounds. -/
theorem detect_speech_segments_in_bounds (audioLen sample_rate : ℕ)
    (timestamps : List (Int × Int)) :
    ∀ seg ∈ detect_speech_segments audioLen sample_rate timestamps,
      0 ≤ seg.start_sample ∧ seg.start_sample ≤ seg.end_sample ∧
      seg.end_sample ≤ (audioLen : Int) := by
  intro seg hseg
  rw [detect_speech_segments, List.mem_filterMap] at hseg
  obtain ⟨p, hp, heq⟩ := hseg
  by_cases hdur : min_speech_duration ≤ (p.2 : ℚ) / 1000 - (p.1 : ℚ) / 1000
  · simp only [if_pos hdur, Option.some.injEq] at heq
    subst heq
    refine ⟨le_max_left _ _, ?_, ?_⟩
    · exact le_max_left _ _
    · have h1 : min (pyInt (((p.1 : ℚ) / 1000) * (sample_rate : ℚ))) (audioLen : Int)
          ≤ (audioLen : Int) := min_le_right _ _
      have h2 : min (pyInt (((p.2 : ℚ) / 1000) * (sample_rate : ℚ))) (audioLen : Int)
          ≤ (audioLen : Int) := min_le_right _ _
      have h3 : (0 : Int) ≤ (audioLen : Int) := Int.ofNat_nonneg _
      simp only [max_le_iff]
      exact ⟨⟨h3, h1⟩, h2⟩
  · simp only [if_neg hdur] at heq
    exact absurd heq (by simp)

/-- C10 witness: the in-bounds property applied to the concrete segment the
segmenter produces from the timestamp pair `(0 ms, 500 ms)` over 8000
samples at 16 kHz. -/
theorem detect_speech_segments_in_bounds_witness :
    0 ≤ (SpeechSegment.mk 0 (1/2) 0 8000 false).start_sample ∧
    (SpeechSegment.mk 0 (1/2) 0 8000 false).start_sample
      ≤ (SpeechSegment.mk 0 (1/2) 0 8000 false).end_sample ∧
    (SpeechSegment.mk 0 (1/2) 0 8000 false).end_sample ≤ ((8000 : ℕ) : Int) :=
  detect_speech_segments_in_bounds 8000 16000 [(0, 500)]
    (SpeechSegment.mk 0 (1/2) 0 8000 false) (by
      have hseg : detect_speech_segments 8000 16000 [(0, 500)]
          = [SpeechSegment.mk 0 (1/2) 0 8000 false] := by
        rw [detect_speech_segments]
        simp only [List.filterMap_cons, List.filterMap_nil]
        rw [if_pos (by norm_num [min_speech_duration])]
        norm_num [pyInt, SpeechSegment.mk.injEq]
      rw [hseg]
      exact List.mem_singleton.mpr rfl)

/-- A recognition result record as produced by the `_create_*_result`
helpers of `StreamingASRHandler` (src/handlers/streaming_asr.py); the
optional `message`/`error` keys are irrelevant to the claims and omitted. -/
structure ASRResult where
  text : String
  raw_text : String
  clean_text : String
  is_final : Bool
  confidence : ℚ
  model_type : String
  status : String
  deriving DecidableEq, Repr

/-- `StreamingASRHandler._create_empty_result`. -/
def create_empty_result : ASRResult :=
  { text := ""
    raw_text := ""
    clean_text := ""
    is_final := false
    confidence := 0
    model_type := "none"
    status := "empty" }

/-- The audio slice `buffer_audio[start_sample:end_sample]` a segment is
dispatched with, exactly as computed inside
`process_audio_with_independent_vad`:
`start_sample = int(seg.start_time * sr)`, `end_sample = int(seg.end_time * sr)`. -/
def segAudioOf (sample_rate : ℕ) (buffer_audio : List Int) (seg : SpeechSegment) : List Int :=
  pySliceI buffer_audio (pyInt (seg.start_time * (sample_rate : ℚ)))
    (pyInt (seg.end_time * (sample_rate : ℚ)))

/-- The body of the per-segment loop of
`StreamingASRHandler.process_audio_with_independent_vad`: dispatch the
segment's audio to the recognizer when it is non-empty, and record the
result and the running `max(end_time)` only when the recognized text is
non-empty (truthy and non-blank after `strip()`). -/
def vadStep (sample_rate : ℕ) (recog : List Int → ASRResult) (buffer_audio : List Int)
    (acc : List ASRResult × ℚ) (seg : SpeechSegment) : List ASRResult × ℚ :=
  if 0 < (segAudioOf sample_rate buffer_audio seg).length then
    if (recog (segAudioOf sample_rate buffer_audio seg)).text ≠ "" ∧
        (recog (segAudioOf sample_rate buffer_audio seg)).text.trim ≠ "" then
      (acc.1 ++ [recog (segAudioOf sample_rate buffer_audio seg)], max acc.2 seg.end_time)
    else acc
  else acc

/-- `StreamingASRHandler.process_audio_with_independent_vad`: runs the VAD
over the whole buffer, dispatches every detected segment
(`_find_consumable_segments` returns all of them and is inlined), consumes
`int(max_end_time * sr)` samples when some result text was non-empty, and
returns the last non-empty result (or an empty result).  The external VAD
and the per-segment recognition (`_process_speech_segment`, which swallows
its own exceptions into empty/error records) are function parameters. -/
def process_audio_with_independent_vad (sample_rate : ℕ)
    (vad : List Int → List SpeechSegment) (recog : List Int → ASRResult)
    (b : AudioBuffer) : ASRResult × AudioBuffer :=
  if b.buffer.length = 0 then (create_empty_result, b)
  else
    let res := (vad b.buffer).foldl (vadStep sample_rate recog b.buffer) ([], 0)
    let consumed_buffer :=
      if 0 < res.2 then b.consume_audio (pyInt (res.2 * (sample_rate : ℚ))) else b
    match res.1.getLast? with
    | some r => (r, consumed_buffer)
    | none => (create_empty_result, consumed_buffer)

/-- A segment "counts" toward consumption when its slice is non-empty (so
it was dispatched) and the recognizer's text for it is non-blank. -/
def segmentCounted (sample_rate : ℕ) (recog : List Int → ASRResult)
    (buffer_audio : List Int) (seg : SpeechSegment) : Prop :=
  0 < (segAudioOf sample_rate buffer_audio seg).length ∧
  (recog (segAudioOf sample_rate buffer_audio seg)).text ≠ "" ∧
  (recog (segAudioOf sample_rate buffer_audio seg)).text.trim ≠ ""

instance (sample_rate : ℕ) (recog : List Int → ASRResult)
    (buffer_audio : List Int) (seg : SpeechSegment) :
    Decidable (segmentCounted sample_rate recog buffer_audio seg) := by
  unfold segmentCounted; infer_instance

/-- The largest `end_time` of a list of segments (0 when none). -/
def maxEndTime (segs : List SpeechSegment) : ℚ :=
  segs.foldl (fun T s => max T s.end_time) 0

lemma vadStep_snd (sample_rate : ℕ) (recog : List Int → ASRResult)
    (buffer_audio : List Int) (acc : List ASRResult × ℚ) (seg : SpeechSegment) :
    (vadStep sample_rate recog buffer_audio acc seg).2 =
      if segmentCounted sample_rate recog buffer_audio seg then
        max acc.2 seg.end_time
      else acc.2 := by
  by_cases h1 : 0 < (segAudioOf sample_rate buffer_audio seg).length
  · by_cases h2 : (recog (segAudioOf sample_rate buffer_audio seg)).text ≠ "" ∧
        (recog (segAudioOf sample_rate buffer_audio seg)).text.trim ≠ ""
    · simp [vadStep, segmentCounted, h1, h2]
    · simp only [segmentCounted] at *
      simp [vadStep, h1, h2]
  · simp only [segmentCounted] at *
    simp [vadStep, h1]

lemma foldl_vadStep_snd (sample_rate : ℕ) (recog : List Int → ASRResult)
    (buffer_audio : List Int) (segs : List SpeechSegment) :
    ∀ acc : List ASRResult × ℚ,
      (segs.foldl (vadStep sample_rate recog buffer_audio) acc).2
        = (segs.filter
            (fun s => decide (segmentCounted sample_rate recog buffer_audio s))).foldl
            (fun T s => max T s.end_time) acc.2 := by
  induction segs with
  | nil => intro acc; simp
  | cons s ss ih =>
      intro acc
      simp only [List.foldl_cons, List.filter_cons]
      rw [ih, vadStep_snd]
      by_cases h : segmentCounted sample_rate recog buffer_audio s
      · simp [h]
      · simp [h]

lemma le_foldl_maxEnd (segs : List SpeechSegment) :
    ∀ init : ℚ, init ≤ segs.foldl (fun T s => max T s.end_time) init := by
  induction segs with
  | nil => intro init; simp
  | cons s ss ih =>
      intro init
      simp only [List.foldl_cons]
      exact le_trans (le_max_left _ _) (ih _)

lemma maxEndTime_nonneg (segs : List SpeechSegment) : 0 ≤ maxEndTime segs :=
  le_foldl_maxEnd segs 0

lemma pyInt_nonneg {q : ℚ} (hq : 0 ≤ q) : 0 ≤ pyInt q := by
  rw [pyInt, if_pos hq]
  exact Int.le_floor.mpr (by exact_mod_cast hq)

lemma pyInt_zero : pyInt 0 = 0 := by
  rw [pyInt, if_pos le_rfl]
  simp

lemma consume_audio_buffer (b : AudioBuffer) (n : Int) :
    (b.consume_audio n).buffer =
      if 0 < n then b.buffer.drop (min n.toNat b.buffer.length) else b.buffer := by
  by_cases h : n ≤ 0
  · rw [AudioBuffer.consume_audio, if_pos h, if_neg (by omega)]
  · rw [AudioBuffer.consume_audio, if_neg h, if_pos (by omega)]

/-- C1 (amended): the buffer is consumed by
`int(max(end_time) * sample_rate)` samples (clamped to the buffer length)
where the max ranges only over dispatched segments whose recognition text
was non-blank; when no dispatched segment yields non-blank text the max is
0 and the buffer is left unchanged. -/
theorem independent_vad_consumption (sample_rate : ℕ)
    (vad : List Int → List SpeechSegment) (recog : List Int → ASRResult)
    (b : AudioBuffer) (hb : b.buffer ≠ []) :
    ((process_audio_with_independent_vad sample_rate vad recog b).2).buffer
      = b.buffer.drop
          (min (pyInt (maxEndTime ((vad b.buffer).filter
            (fun s => decide (segmentCounted sample_rate recog b.buffer s)))
              * (sample_rate : ℚ))).toNat
            b.buffer.length) := by
  have hb0 : ¬ b.buffer.length = 0 := by
    simpa [List.length_eq_zero] using hb
  set T := maxEndTime ((vad b.buffer).filter
      (fun s => decide (segmentCounted sample_rate recog b.buffer s))) with hT
  have hsnd : ((vad b.buffer).foldl (vadStep sample_rate recog b.buffer)
      ([], (0:ℚ))).2 = T := by
    rw [foldl_vadStep_snd]
    rfl
  have hdrop :
      (if 0 < ((vad b.buffer).foldl (vadStep sample_rate recog b.buffer) ([], (0:ℚ))).2
        then b.consume_audio
          (pyInt (((vad b.buffer).foldl (vadStep sample_rate recog b.buffer) ([], (0:ℚ))).2
            * (sample_rate : ℚ)))
        else b).buffer
      = b.buffer.drop (min (pyInt (T * (sample_rate : ℚ))).toNat b.buffer.length) := by
    rw [hsnd]
    by_cases hTpos : 0 < T
    · rw [if_pos hTpos, consume_audio_buffer]
      by_cases hn : 0 < pyInt (T * (sample_rate : ℚ))
      · rw [if_pos hn]
      · rw [if_neg hn]
        have h0 : 0 ≤ pyInt (T * (sample_rate : ℚ)) :=
          pyInt_nonneg (mul_nonneg hTpos.le (by positivity))
        have hz : pyInt (T * (sample_rate : ℚ)) = 0 := by omega
        rw [hz]
        simp
    · rw [if_neg hTpos]
      have hT0 : T = 0 := le_antisymm (not_lt.mp hTpos) (maxEndTime_nonneg _)
      rw [hT0, zero_mul, pyInt_zero]
      simp
  simp only [process_audio_with_independent_vad, if_neg hb0]
  cases hgl : ((vad b.buffer).foldl (vadStep sample_rate recog b.buffer)
      ([], (0:ℚ))).1.getLast? with
  | none => simp only [hgl]; exact hdrop
  | some r => simp only [hgl]; exact hdrop

/-- Concrete VAD stub: one detected segment covering the first second. -/
def cexVad : List Int → List SpeechSegment := fun _ => [SpeechSegment.mk 0 1 0 3 false]

/-- Concrete recognizer stub that never yields text. -/
def cexRecogEmpty : List Int → ASRResult := fun _ => create_empty_result

/-- A concrete success record with non-blank text. -/
def hiResult : ASRResult :=
  { text := "hi"
    raw_text := "hi"
    clean_text := "hi"
    is_final := true
    confidence := 9/10
    model_type := "sensevoice_vad"
    status := "success" }

/-- Concrete recognizer stub that always yields the text `hi`. -/
def cexRecogHi : List Int → ASRResult := fun _ => hiResult

/-- Concrete buffer holding 1 second of audio at a 3 Hz model rate. -/
def cexBufferC1 : AudioBuffer :=
  { max_samples := 100
    sample_rate := 3
    buffer := [1, 2, 3]
    processed_offset := 0
    total_samples_added := 3
    vad_processed_offset := 0
    speech_segments := []
    processed_segments := [] }

lemma cex_segAudio :
    segAudioOf 3 cexBufferC1.buffer (SpeechSegment.mk 0 1 0 3 false) = [1, 2, 3] := by
  rw [segAudioOf]
  norm_num [pyInt, pySliceI, cexBufferC1]

lemma cex_poll_empty_eval :
    process_audio_with_independent_vad 3 cexVad cexRecogEmpty cexBufferC1
      = (create_empty_result, cexBufferC1) := by
  have hstep : vadStep 3 cexRecogEmpty cexBufferC1.buffer ([], (0:ℚ))
      (SpeechSegment.mk 0 1 0 3 false) = ([], (0:ℚ)) := by
    simp only [vadStep, cex_segAudio]
    simp [cexRecogEmpty, create_empty_result]
  have hfold : (cexVad cexBufferC1.buffer).foldl
      (vadStep 3 cexRecogEmpty cexBufferC1.buffer) ([], (0:ℚ)) = ([], (0:ℚ)) := by
    show List.foldl _ _ [SpeechSegment.mk 0 1 0 3 false] = _
    simp only [List.foldl_cons, List.foldl_nil, hstep]
  simp only [process_audio_with_independent_vad, hfold]
  norm_num [cexBufferC1]

/-- C1 counterexample: the VAD returns one segment, the segment is
dispatched (its slice is all 3 buffered samples), the recognizer returns
empty text — and the poll consumes NOTHING: the buffer is returned intact
instead of being consumed by `end_time * sample_rate = 3` samples as the
claim requires. -/
theorem independent_vad_empty_text_not_consumed :
    cexVad cexBufferC1.buffer ≠ [] ∧
    segAudioOf 3 cexBufferC1.buffer (SpeechSegment.mk 0 1 0 3 false) ≠ [] ∧
    (process_audio_with_independent_vad 3 cexVad cexRecogEmpty cexBufferC1).2
      = cexBufferC1 ∧
    cexBufferC1.buffer ≠ [] := by
  refine ⟨by simp [cexVad], ?_, ?_, by simp [cexBufferC1]⟩
  · rw [cex_segAudio]
    simp
  · rw [cex_poll_empty_eval]

/-- C1 witness: the amended consumption law applied at the concrete
instance in which the recognizer does yield text. -/
theorem independent_vad_consumption_witness :
    ((process_audio_with_independent_vad 3 cexVad cexRecogHi cexBufferC1).2).buffer
      = cexBufferC1.buffer.drop
          (min (pyInt (maxEndTime ((cexVad cexBufferC1.buffer).filter
            (fun s => decide (segmentCounted 3 cexRecogHi cexBufferC1.buffer s)))
              * ((3 : ℕ) : ℚ))).toNat
            cexBufferC1.buffer.length) :=
  independent_vad_consumption 3 cexVad cexRecogHi cexBufferC1 (by simp [cexBufferC1])

/-- A `result` message as assembled by
`WebSocketStreamingHandler._send_recognition_result`; the timestamp and
segment-time passthrough fields are irrelevant to the claims and omitted. -/
structure ResultMessage where
  type : String
  status : String
  text : String
  raw_text : String
  clean_text : String
  confidence : ℚ
  model_type : String
  is_final : Bool
  language : String
  deriving DecidableEq, Repr

/-- `WebSocketStreamingHandler._send_recognition_result`: the message sent
for a recognition result.  Note `raw_text` and `clean_text` are both set to
the result text and `is_final` is hard-coded to `True`. -/
def send_recognition_result (language : String) (result : ASRResult) : ResultMessage :=
  { type := "result"
    status := "success"
    text := result.text
    raw_text := result.text
    clean_text := result.text
    confidence := 95/100
    model_type := "SenseVoice"
    is_final := true
    language := language }

/-- The emission decision of `WebSocketStreamingHandler._audio_consumer_loop`
for one poll: a `result` message is sent only when the poll's recognition
text is truthy and non-blank after `strip()`; otherwise nothing is sent. -/
def audio_consumer_emission (language : String) (result : ASRResult) :
    Option ResultMessage :=
  if result.text ≠ "" ∧ result.text.trim ≠ "" then
    some (send_recognition_result language result)
  else none

/-- C4 counterexample: a poll whose recognition produced no text emits no
message at all (the claim requires every processed chunk to produce an
emitted message, partial ones marked `is_final=false`). -/
theorem empty_poll_emits_no_message :
    audio_consumer_emission "auto"
        (process_audio_with_independent_vad 3 cexVad cexRecogEmpty cexBufferC1).1
      = none := by
  rw [cex_poll_empty_eval]
  simp [audio_consumer_emission, create_empty_result]

/-- C4 (amended): a message is emitted for a poll iff the recognition text
is non-blank, and every emitted message is a `result` marked
`is_final=true` — no partial (`is_final=false`) results are ever sent. -/
theorem audio_consumer_emission_spec (language : String) (r : ASRResult) :
    (r.text ≠ "" ∧ r.text.trim ≠ "" →
      audio_consumer_emission language r = some (send_recognition_result language r)) ∧
    (¬(r.text ≠ "" ∧ r.text.trim ≠ "") →
      audio_consumer_emission language r = none) ∧
    (∀ m, audio_consumer_emission language r = some m →
      m.is_final = true ∧ m.type = "result") := by
  refine ⟨?_, ?_, ?_⟩
  · intro h
    rw [audio_consumer_emission, if_pos h]
  · intro h
    rw [audio_consumer_emission, if_neg h]
  · intro m hm
    by_cases h : r.text ≠ "" ∧ r.text.trim ≠ ""
    · rw [audio_consumer_emission, if_pos h, Option.some.injEq] at hm
      rw [← hm]
      exact ⟨rfl, rfl⟩
    · rw [audio_consumer_emission, if_neg h] at hm
      exact absurd hm (by simp)

/-- C4 witness: the emission law applied to the concrete non-blank result
`hiResult`. -/
theorem audio_consumer_emission_spec_witness :
    (hiResult.text ≠ "" ∧ hiResult.text.trim ≠ "" →
      audio_consumer_emission "auto" hiResult
        = some (send_recognition_result "auto" hiResult)) ∧
    (¬(hiResult.text ≠ "" ∧ hiResult.text.trim ≠ "") →
      audio_consumer_emission "auto" hiResult = none) ∧
    (∀ m, audio_consumer_emission "auto" hiResult = some m →
      m.is_final = true ∧ m.type = "result") :=
  audio_consumer_emission_spec "auto" hiResult

/-- Per-connection session state held by `ConnectionManager` for one
client: the audio buffer and the persistent FunASR recognizer cache
(`asr_cache`, an opaque dict modelled as an association list). -/
structure Session where
  audio_buffer : AudioBuffer
  asr_cache : List (String × String)
  deriving DecidableEq, Repr

/-- Messages the streaming handler can send back on the WebSocket, reduced
to the constructors the claims are about. -/
inductive OutMessage where
  | result (m : ResultMessage)
  | configUpdated
  | pong
  | cleared (msg : String)
  | errorMsg (msg : String)
  deriving DecidableEq, Repr

/-- `WebSocketStreamingHandler._handle_clear_message` on a connected
session: clears the audio buffer, clears the connection's ASR cache
(`ConnectionManager.clear_asr_cache`), and replies with a `cleared`
message. -/
def handle_clear_message (s : Session) : Session × OutMessage :=
  ({ audio_buffer := s.audio_buffer.clear, asr_cache := [] },
   OutMessage.cleared "音频缓冲区和ASR缓存已清空")

/-- The message-type dispatch of
`WebSocketStreamingHandler._process_message`: only `config`, `audio`,
`ping` and `clear` are recognized; any other type — including
`end_segment` — falls through to an unknown-message-type error that
changes no session state.  The `config` and `audio` handlers involve
external decoding/validation and are taken as parameters. -/
def process_message (configH audioH : Session → Session × OutMessage)
    (s : Session) (message_type : String) : Session × OutMessage :=
  if message_type = "config" then configH s
  else if message_type = "audio" then audioH s
  else if message_type = "ping" then (s, OutMessage.pong)
  else if message_type = "clear" then handle_clear_message s
  else (s, OutMessage.errorMsg ("未知的消息类型: " ++ message_type))

/-- Placeholder sub-handler used only to instantiate the dispatch at a
concrete input. -/
def stubHandler : Session → Session × OutMessage :=
  fun s => (s, OutMessage.errorMsg "stub")

/-- A concrete session with 3 s of buffered audio (3 samples at a 1 Hz
model rate) and a non-empty recognizer cache. -/
def endSegmentCexSession : Session :=
  { audio_buffer :=
      { max_samples := 10
        sample_rate := 1
        buffer := [9, 9, 9]
        processed_offset := 0
        total_samples_added := 3
        vad_processed_offset := 0
        speech_segments := []
        processed_segments := [] }
    asr_cache := [("layer", "state")] }

/-- C2 counterexample: on a session with 3 s of buffered audio and a
non-empty cache, an `end_segment` message is answered with an
unknown-message-type error; no `result` with `is_final=true` is emitted
and the buffer is NOT emptied (it still holds all 3 seconds of samples). -/
theorem end_segment_is_unknown_type :
    process_message stubHandler stubHandler endSegmentCexSession "end_segment"
      = (endSegmentCexSession, OutMessage.errorMsg "未知的消息类型: end_segment") ∧
    (process_message stubHandler stubHandler endSegmentCexSession
        "end_segment").1.audio_buffer.buffer.length = 3 ∧
    endSegmentCexSession.audio_buffer.buffer ≠ [] := by
  refine ⟨rfl, rfl, ?_⟩
  simp [endSegmentCexSession]

/-- C2 (amended): `end_segment` matches none of the handled message types,
so for every session and every config/audio sub-handler the dispatcher
replies with an unknown-message-type error and leaves the session —
buffer and caches — completely unchanged; in particular nothing is
finalized. -/
theorem end_segment_no_finalize (configH audioH : Session → Session × OutMessage)
    (s : Session) :
    process_message configH audioH s "end_segment"
      = (s, OutMessage.errorMsg "未知的消息类型: end_segment") := rfl

/-- C3: a `clear` message performs a full reset: the buffer is emptied,
`total_samples_added`, the processed/VAD offsets and both segment lists
return to their initial values, the session's persistent recognizer cache
is emptied, and a `cleared` confirmation is sent. -/
theorem clear_message_full_reset (configH audioH : Session → Session × OutMessage)
    (s : Session) :
    (process_message configH audioH s "clear").1.audio_buffer.buffer = [] ∧
    (process_message configH audioH s "clear").1.audio_buffer.total_samples_added = 0 ∧
    (process_message configH audioH s "clear").1.audio_buffer.processed_offset = 0 ∧
    (process_message configH audioH s "clear").1.audio_buffer.vad_processed_offset = 0 ∧
    (process_message configH audioH s "clear").1.audio_buffer.speech_segments = [] ∧
    (process_message configH audioH s "clear").1.audio_buffer.processed_segments = [] ∧
    (process_message configH audioH s "clear").1.asr_cache = [] ∧
    (process_message configH audioH s "clear").2
      = OutMessage.cleared "音频缓冲区和ASR缓存已清空" := by
  refine ⟨rfl, rfl, rfl, rfl, rfl, rfl, rfl, rfl⟩

/-- The window loop of `_process_long_audio_chunked` (src/api.py): starting
at `start`, each iteration emits the window
`(start, end)` with `end = min (start + chunk) total`, stops after the
window that reaches the signal end, and otherwise advances to
`end - overlap`.  The Python `while` loop is modelled with explicit fuel;
whenever `overlap < chunk` the loop advances by at least one sample per
iteration, so `total + 1` units of fuel (used by `chunkWindows` below)
reproduce the loop exactly.  (For `overlap ≥ chunk` the Python loop does
not terminate; no theorem below concerns that region.) -/
def chunkLoop (N C O fuel start : ℕ) : List (ℕ × ℕ) :=
  match fuel with
  | 0 => []
  | f + 1 =>
    if start < N then
      if min (start + C) N < N then
        (start, min (start + C) N) :: chunkLoop N C O f (min (start + C) N - O)
      else [(start, min (start + C) N)]
    else []

/-- The list of `(start_pos, end_pos)` windows `_process_long_audio_chunked`
iterates over a signal of `total_samples` samples. -/
def chunkWindows (total_samples chunk_samples overlap_samples : ℕ) : List (ℕ × ℕ) :=
  chunkLoop total_samples chunk_samples overlap_samples (total_samples + 1) 0

lemma chunkLoop_spec (N C O : ℕ) (hOC : O < C) :
    ∀ f s : ℕ, s < N → N - s ≤ f → O < N - s →
      (∀ p ∈ chunkLoop N C O f s, p.2 = min (p.1 + C) N) ∧
      (chunkLoop N C O f s).head? = some (s, min (s + C) N) ∧
      ((chunkLoop N C O f s).getLast?.map Prod.snd) = some N ∧
      List.Chain' (fun w1 w2 => w2.1 = w1.1 + (C - O) ∧ w1.2 = w1.1 + C)
        (chunkLoop N C O f s) ∧
      (∀ x, s ≤ x → x < N → ∃ p ∈ chunkLoop N C O f s, p.1 ≤ x ∧ x < p.2) ∧
      (chunkLoop N C O f s).length = (N - s - O + (C - O - 1)) / (C - O) := by
  intro f
  induction f with
  | zero => intro s hs hf hO2; omega
  | succ f ih =>
    intro s hs hf hO2
    by_cases hend : min (s + C) N < N
    · have hsc : s + C < N := by omega
      have hmin : min (s + C) N = s + C := by omega
      have hrec : chunkLoop N C O (f + 1) s
          = (s, s + C) :: chunkLoop N C O f (s + C - O) := by
        simp only [chunkLoop]
        rw [if_pos hs, if_pos hend, hmin]
      have hs' : s + C - O < N := by omega
      have hf' : N - (s + C - O) ≤ f := by omega
      have hO2' : O < N - (s + C - O) := by omega
      obtain ⟨ihMem, ihHead, ihLast, ihChain, ihCov, ihLen⟩ := ih (s + C - O) hs' hf' hO2'
      rw [hrec]
      have hne : chunkLoop N C O f (s + C - O) ≠ [] := by
        intro hnil
        rw [hnil] at ihHead
        simp at ihHead
      refine ⟨?_, ?_, ?_, ?_, ?_, ?_⟩
      · intro p hp
        rcases List.mem_cons.mp hp with h | h
        · subst h
          simp
          omega
        · exact ihMem p h
      · simp [hmin]
      · obtain ⟨y, ys, hys⟩ := List.exists_cons_of_ne_nil hne
        rw [hys, List.getLast?_cons_cons, ← hys]
        exact ihLast
      · rw [List.chain'_cons']
        refine ⟨?_, ihChain⟩
        intro b hb
        rw [ihHead] at hb
        simp only [Option.mem_some_iff] at hb
        subst hb
        constructor
        · omega
        · rfl
      · intro x hx1 hx2
        by_cases hxe : x < s + C
        · exact ⟨(s, s + C), List.mem_cons_self _ _, hx1, hxe⟩
        · obtain ⟨p, hp, h1, h2⟩ := ihCov x (by omega) hx2
          exact ⟨p, List.mem_cons_of_mem _ hp, h1, h2⟩
      · have hb : 0 < C - O := by omega
        have h1 : N - s - O + (C - O - 1)
            = (N - (s + C - O) - O + (C - O - 1)) + (C - O) := by omega
        rw [List.length_cons, ihLen, h1, Nat.add_div_right _ hb]
    · have hmin : min (s + C) N = N := by omega
      have hrec : chunkLoop N C O (f + 1) s = [(s, min (s + C) N)] := by
        simp only [chunkLoop]
        rw [if_pos hs, if_neg hend]
      rw [hrec]
      refine ⟨?_, ?_, ?_, ?_, ?_, ?_⟩
      · intro p hp
        simp only [List.mem_singleton] at hp
        subst hp
        rfl
      · rfl
      · simp [hmin]
      · simp
      · intro x hx1 hx2
        exact ⟨(s, min (s + C) N), by simp, hx1, by omega⟩
      · simp only [List.length_singleton]
        exact (Nat.div_eq_of_lt_le (by omega) (by omega)).symm

/-- C8: for `0 < O < C < N`, the chunked batch path iterates windows that
each end at `min (start + C) N` (so are at most `C` samples long and the
last is clipped to the signal end), start at 0, advance by `C - O` per
step, end at the signal end, cover `[0, N)` with no gaps, and number
exactly `⌈(N - O) / (C - O)⌉`. -/
theorem chunk_windows_spec (N C O : ℕ) (hO : 0 < O) (hOC : O < C) (hCN : C < N) :
    (∀ p ∈ chunkWindows N C O, p.2 - p.1 ≤ C ∧ p.2 = min (p.1 + C) N) ∧
    (chunkWindows N C O).head? = some (0, C) ∧
    ((chunkWindows N C O).getLast?.map Prod.snd) = some N ∧
    List.Chain' (fun w1 w2 => w2.1 = w1.1 + (C - O) ∧ w1.2 = w1.1 + C)
      (chunkWindows N C O) ∧
    (∀ x, x < N → ∃ p ∈ chunkWindows N C O, p.1 ≤ x ∧ x < p.2) ∧
    (chunkWindows N C O).length = (N - O + (C - O) - 1) / (C - O) := by
  obtain ⟨hMem, hHead, hLast, hChain, hCov, hLen⟩ :=
    chunkLoop_spec N C O hOC (N + 1) 0 (by omega) (by omega) (by omega)
  refine ⟨?_, ?_, hLast, hChain, ?_, ?_⟩
  · intro p hp
    have h := hMem p hp
    constructor <;> [omega; exact h]
  · rw [chunkWindows, hHead]
    have : min (0 + C) N = C := by omega
    rw [this]
  · intro x hx
    exact hCov x (Nat.zero_le x) hx
  · rw [chunkWindows, hLen]
    congr 1
    omega

/-- C8 witness: the window law at the concrete instance `N = 5`, `C = 2`,
`O = 1` (four windows `(0,2), (1,3), (2,4), (3,5)`). -/
theorem chunk_windows_spec_witness :
    (∀ p ∈ chunkWindows 5 2 1, p.2 - p.1 ≤ 2 ∧ p.2 = min (p.1 + 2) 5) ∧
    (chunkWindows 5 2 1).head? = some (0, 2) ∧
    ((chunkWindows 5 2 1).getLast?.map Prod.snd) = some 5 ∧
    List.Chain' (fun w1 w2 => w2.1 = w1.1 + (2 - 1) ∧ w1.2 = w1.1 + 2)
      (chunkWindows 5 2 1) ∧
    (∀ x, x < 5 → ∃ p ∈ chunkWindows 5 2 1, p.1 ≤ x ∧ x < p.2) ∧
    (chunkWindows 5 2 1).length = (5 - 1 + (2 - 1) - 1) / (2 - 1) :=
  chunk_windows_spec 5 2 1 (by norm_num) (by norm_num) (by norm_num)

/-- The output record `_process_long_audio_chunked` returns for one logical
input file. -/
structure OutputRecord where
  key : String
  text : String
  raw_text : String
  clean_text : String
  deriving DecidableEq, Repr

/-- The per-window body of `_process_long_audio_chunked`'s loop: the window
slice is sent to the recognizer; on success the raw text and its
marker-stripped form are appended to the two accumulators; a window whose
inference raises (or returns no entry) contributes nothing and the loop
continues. -/
def chunkTextsStep (recog : List Int → Option String) (clean : String → String)
    (audio : List Int) (acc : List String × List String) (w : ℕ × ℕ) :
    List String × List String :=
  match recog (pySlice audio w.1 w.2) with
  | some chunk_text => (acc.1 ++ [chunk_text], acc.2 ++ [clean chunk_text])
  | none => acc

/-- `_process_long_audio_chunked` (src/api.py): iterates the overlap
windows, collects per-window raw and marker-stripped texts, and merges each
list by plain concatenation in window order.  The model inference
(returning `none` on a raised/empty result), the marker-strip regex and
`rich_transcription_postprocess` are external and passed as parameters. -/
def process_long_audio_chunked (chunk_samples overlap_samples : ℕ)
    (audio : List Int) (recog : List Int → Option String)
    (clean post : String → String) (audio_key : String) : OutputRecord :=
  let texts := (chunkWindows audio.length chunk_samples overlap_samples).foldl
    (chunkTextsStep recog clean audio) ([], [])
  { key := audio_key
    text := post (String.join texts.1)
    raw_text := String.join texts.1
    clean_text := String.join texts.2 }

lemma foldl_chunkTextsStep (recog : List Int → Option String)
    (clean : String → String) (audio : List Int) (W : List (ℕ × ℕ)) :
    ∀ acc : List String × List String,
      W.foldl (chunkTextsStep recog clean audio) acc
        = (acc.1 ++ W.filterMap (fun w => recog (pySlice audio w.1 w.2)),
           acc.2 ++ (W.filterMap (fun w => recog (pySlice audio w.1 w.2))).map clean) := by
  induction W with
  | nil => intro acc; simp
  | cons w ws ih =>
      intro acc
      simp only [List.foldl_cons, List.filterMap_cons]
      cases hr : recog (pySlice audio w.1 w.2) with
      | none =>
          rw [ih]
          simp [chunkTextsStep, hr]
      | some t =>
          rw [ih]
          simp [chunkTextsStep, hr]

/-- C9: the merged `raw_text` is the plain concatenation, in window order,
of the windows' raw texts and `clean_text` the concatenation of their
marker-stripped texts (no de-duplication of overlap content); a window
whose recognizer invocation fails contributes no text while every other
window — including later ones — still contributes. -/
theorem chunked_merge_concat (chunk_samples overlap_samples : ℕ) (audio : List Int)
    (recog : List Int → Option String) (clean post : String → String)
    (audio_key : String) :
    (process_long_audio_chunked chunk_samples overlap_samples audio recog clean post
        audio_key).raw_text
      = String.join ((chunkWindows audio.length chunk_samples overlap_samples).filterMap
          (fun w => recog (pySlice audio w.1 w.2))) ∧
    (process_long_audio_chunked chunk_samples overlap_samples audio recog clean post
        audio_key).clean_text
      = String.join (((chunkWindows audio.length chunk_samples overlap_samples).filterMap
          (fun w => recog (pySlice audio w.1 w.2))).map clean) ∧
    (process_long_audio_chunked chunk_samples overlap_samples audio recog clean post
        audio_key).key = audio_key ∧
    (process_long_audio_chunked chunk_samples overlap_samples audio recog clean post
        audio_key).text
      = post (String.join ((chunkWindows audio.length chunk_samples
          overlap_samples).filterMap (fun w => recog (pySlice audio w.1 w.2)))) ∧
    (∀ W1 w W2,
      chunkWindows audio.length chunk_samples overlap_samples = W1 ++ w :: W2 →
      recog (pySlice audio w.1 w.2) = none →
      (process_long_audio_chunked chunk_samples overlap_samples audio recog clean post
          audio_key).raw_text
        = String.join (W1.filterMap (fun w => recog (pySlice audio w.1 w.2))
            ++ W2.filterMap (fun w => recog (pySlice audio w.1 w.2)))) := by
  have hfold := foldl_chunkTextsStep recog clean audio
    (chunkWindows audio.length chunk_samples overlap_samples) ([], [])
  refine ⟨?_, ?_, rfl, ?_, ?_⟩
  · simp only [process_long_audio_chunked]
    rw [hfold]
    simp
  · simp only [process_long_audio_chunked]
    rw [hfold]
    simp
  · simp only [process_long_audio_chunked]
    rw [hfold]
    simp
  · intro W1 w W2 hW hr
    simp only [process_long_audio_chunked]
    rw [hfold]
    simp only [List.nil_append]
    rw [hW, List.filterMap_append, List.filterMap_cons, hr]

/-- Concrete recognizer stub for the chunked path: it fails exactly on the
slice of the second window `(1, 3)` of a 5-sample signal. -/
def cexRecogChunk : List Int → Option String :=
  fun l => if l = [2, 3] then none else some "w"

/-- C9 witness: the merge law at the concrete 5-sample signal with
`chunk = 2`, `overlap = 1`, where the second window's inference fails. -/
theorem chunked_merge_concat_witness :
    (process_long_audio_chunked 2 1 [1, 2, 3, 4, 5] cexRecogChunk id id "k").raw_text
      = String.join ((chunkWindows (List.length [1, 2, 3, 4, 5]) 2 1).filterMap
          (fun w => cexRecogChunk (pySlice [1, 2, 3, 4, 5] w.1 w.2))) ∧
    (process_long_audio_chunked 2 1 [1, 2, 3, 4, 5] cexRecogChunk id id "k").clean_text
      = String.join (((chunkWindows (List.length [1, 2, 3, 4, 5]) 2 1).filterMap
          (fun w => cexRecogChunk (pySlice [1, 2, 3, 4, 5] w.1 w.2))).map id) ∧
    (process_long_audio_chunked 2 1 [1, 2, 3, 4, 5] cexRecogChunk id id "k").key = "k" ∧
    (process_long_audio_chunked 2 1 [1, 2, 3, 4, 5] cexRecogChunk id id "k").text
      = id (String.join ((chunkWindows (List.length [1, 2, 3, 4, 5]) 2 1).filterMap
          (fun w => cexRecogChunk (pySlice [1, 2, 3, 4, 5] w.1 w.2)))) ∧
    (∀ W1 w W2,
      chunkWindows (List.length [1, 2, 3, 4, 5]) 2 1 = W1 ++ w :: W2 →
      cexRecogChunk (pySlice [1, 2, 3, 4, 5] w.1 w.2) = none →
      (process_long_audio_chunked 2 1 [1, 2, 3, 4, 5] cexRecogChunk id id "k").raw_text
        = String.join (W1.filterMap (fun w => cexRecogChunk (pySlice [1, 2, 3, 4, 5] w.1 w.2))
            ++ W2.filterMap (fun w => cexRecogChunk (pySlice [1, 2, 3, 4, 5] w.1 w.2)))) :=
  chunked_merge_concat 2 1 [1, 2, 3, 4, 5] cexRecogChunk id id "k"
